import Mathlib

/-
Verification of the micrograd-hck scalar autograd engine
(engine.py, nn.py, optim.py).

The computation graph is embedded shallowly: a graph is a list of nodes,
a node's identity is its index in the list (Python object identity),
and every arithmetic operation appends a fresh node whose `op` payload
records exactly what the corresponding `_backward` closure captured at
construction time.  Quantities the closures read live (for example
`other.data` in `__mul__`) are read from the store at backward time,
mirroring the Python closures.  Numeric primitives that the field does
not provide (math.exp, math.log, math.tanh, math.sqrt, float `**`) are
passed in as functions, so the same definitions evaluate exactly over ℚ
and instantiate to the ideal real semantics over ℝ.
-/

namespace Micrograd

/-- Backward-rule tag of a node: the operation that created it plus the
payload its `_backward` closure captured at construction time. -/
inductive Op (α : Type) where
  | leaf : Op α
  | add (i j : Nat) : Op α
  | neg (i : Nat) : Op α
  | mul (i j : Nat) : Op α
  | pow (i : Nat) (e : α) : Op α
  | exp (i : Nat) (outData : α) : Op α
  | log (i : Nat) (safe : α) : Op α
  | tanh (i : Nat) (t : α) : Op α
  | relu (i : Nat) : Op α
  deriving DecidableEq

/-- A `Value` node: forward data, accumulated gradient, parent indices
(`_prev`, used only for the topological traversal) and the backward tag. -/
structure Node (α : Type) where
  data : α
  grad : α
  prev : List Nat
  op : Op α
  deriving DecidableEq

/-- A computation graph: the arena of all nodes created so far; a node's
index plays the role of Python object identity. -/
abbrev Graph (α : Type) := List (Node α)

section Engine

variable {α : Type} [LinearOrderedField α]

/-- Junk node returned for an out-of-range index. -/
def emptyNode : Node α := ⟨0, 0, [], Op.leaf⟩

/-- Node lookup. -/
def getN (g : Graph α) (i : Nat) : Node α := g.getD i emptyNode

/-- `data` of node `i`. -/
def dt (g : Graph α) (i : Nat) : α := (getN g i).data

/-- `grad` of node `i`. -/
def gr (g : Graph α) (i : Nat) : α := (getN g i).grad

/-- `_prev` of node `i`. -/
def pv (g : Graph α) (i : Nat) : List Nat := (getN g i).prev

/-- Backward tag of node `i`. -/
def opOf (g : Graph α) (i : Nat) : Op α := (getN g i).op

/-- `node.grad = v`. -/
def setGrad (g : Graph α) (i : Nat) (v : α) : Graph α :=
  g.set i { getN g i with grad := v }

/-- `node.grad += d`. -/
def bumpGrad (g : Graph α) (i : Nat) (d : α) : Graph α :=
  g.set i { getN g i with grad := (getN g i).grad + d }

/-- `node.data = v` (in-place mutation, as an optimizer step performs). -/
def setData (g : Graph α) (i : Nat) (v : α) : Graph α :=
  g.set i { getN g i with data := v }

/-- `Value(d)`: fresh leaf node with zero gradient and no history. -/
def mkValue (g : Graph α) (d : α) : Graph α × Nat :=
  (g ++ [⟨d, 0, [], Op.leaf⟩], g.length)

/-- `Value.__add__`: forward sum, children `(self, other)`. -/
def addV (g : Graph α) (i j : Nat) : Graph α × Nat :=
  (g ++ [⟨dt g i + dt g j, 0, [i, j], Op.add i j⟩], g.length)

/-- `Value.__neg__`. -/
def negV (g : Graph α) (i : Nat) : Graph α × Nat :=
  (g ++ [⟨-(dt g i), 0, [i], Op.neg i⟩], g.length)

/-- `Value.__sub__`: `self + (-other)`. -/
def subV (g : Graph α) (i j : Nat) : Graph α × Nat :=
  let p := negV g j
  addV p.1 i p.2

/-- `Value.__mul__`: forward product, children `(self, other)`. -/
def mulV (g : Graph α) (i j : Nat) : Graph α × Nat :=
  (g ++ [⟨dt g i * dt g j, 0, [i, j], Op.mul i j⟩], g.length)

/-- `Value.__pow__` with constant exponent `e`; `pw` stands for the float
`**` primitive. -/
def powV (pw : α → α → α) (g : Graph α) (i : Nat) (e : α) : Graph α × Nat :=
  (g ++ [⟨pw (dt g i) e, 0, [i], Op.pow i e⟩], g.length)

/-- `Value.__truediv__`: `a / b = a * b ** (-1)`; no private rule. -/
def divV (pw : α → α → α) (g : Graph α) (i j : Nat) : Graph α × Nat :=
  let p := powV pw g j (-1)
  mulV p.1 i p.2

/-- `Value.exp`; the forward result `out_data` is also captured in the
backward payload, mirroring the closure capture in the source. -/
def expV (E : α → α) (g : Graph α) (i : Nat) : Graph α × Nat :=
  (g ++ [⟨E (dt g i), 0, [i], Op.exp i (E (dt g i))⟩], g.length)

/-- The epsilon guard 1e-12 used by `Value.log`. -/
def EPS : α := 1 / 1000000000000

/-- `Value.log`: input clamped to `EPS`, and the clamped value is reused
in the backward payload. `L` stands for math.log. -/
def logV (L : α → α) (g : Graph α) (i : Nat) : Graph α × Nat :=
  let safe := if dt g i > EPS then dt g i else EPS
  (g ++ [⟨L safe, 0, [i], Op.log i safe⟩], g.length)

/-- `Value.tanh`: the forward value `t` is captured in the payload. -/
def tanhV (T : α → α) (g : Graph α) (i : Nat) : Graph α × Nat :=
  let t := T (dt g i)
  (g ++ [⟨t, 0, [i], Op.tanh i t⟩], g.length)

/-- `Value.relu`. -/
def reluV (g : Graph α) (i : Nat) : Graph α × Nat :=
  (g ++ [⟨if dt g i > 0 then dt g i else 0, 0, [i], Op.relu i⟩], g.length)

/-- `Value.sigmoid`: pure composition `1.0 / (1.0 + (-self).exp())`.
Expanding the Python dispatch: `neg`, `exp`, then `e + Value(1.0)` (via
`__radd__`), then `Value(1.0) * (sum ** -1)` (via `__rtruediv__` and
`__truediv__`).  There is no sigmoid-specific backward rule. -/
def sigmoidV (E : α → α) (pw : α → α → α) (g : Graph α) (i : Nat) : Graph α × Nat :=
  let p1 := negV g i
  let p2 := expV E p1.1 p1.2
  let p3 := mkValue p2.1 1
  let p4 := addV p3.1 p2.2 p3.2
  let p5 := mkValue p4.1 1
  let p6 := powV pw p5.1 p4.2 (-1)
  mulV p6.1 p5.2 p6.2

/-- The local gradient factor registered by `__pow__`: 0 for a zero base
when `e - 1` is negative (avoiding an infinite gradient for
`0 ** negative`), else `e * base ** (e - 1)`, reading `self.data` live. -/
def powLocalGrad (pw : α → α → α) (base e : α) : α :=
  if base = 0 ∧ e - 1 < 0 then 0 else e * pw base (e - 1)

/-- The `_backward` closure of node `k`, exactly as registered by each
operation: gradient contributions are added, and every quantity the
Python closure reads live (`self.data`, `other.data`, `out.grad`) is
read from the current store. -/
def runNodeBackward (pw : α → α → α) (g : Graph α) (k : Nat) : Graph α :=
  match opOf g k with
  | Op.leaf => g
  | Op.add i j =>
      let g1 := bumpGrad g i (1 * gr g k)
      bumpGrad g1 j (1 * gr g1 k)
  | Op.neg i => bumpGrad g i (-1 * gr g k)
  | Op.mul i j =>
      let g1 := bumpGrad g i (dt g j * gr g k)
      bumpGrad g1 j (dt g1 i * gr g1 k)
  | Op.pow i e => bumpGrad g i (powLocalGrad pw (dt g i) e * gr g k)
  | Op.exp i od => bumpGrad g i (od * gr g k)
  | Op.log i safe => bumpGrad g i (1 / safe * gr g k)
  | Op.tanh i t => bumpGrad g i ((1 - t * t) * gr g k)
  | Op.relu i => bumpGrad g i ((if dt g i > 0 then (1 : α) else 0) * gr g k)

/-- `build(v)` inside `Value.backward`: depth-first traversal appending a
node to the postorder list only after all its parents, with a visited
set keyed by identity.  The state is `(visited, topo)`.  Recursion is
fuel-bounded; fuel `g.length` suffices for graphs built through the
constructors above, whose parent indices are strictly smaller than the
node's own index. -/
def buildTopo (g : Graph α) : Nat → Nat → List Nat × List Nat → List Nat × List Nat
  | 0, _, st => st
  | fuel + 1, v, st =>
      if v ∈ st.1 then st
      else
        let st1 := (pv g v).foldl (fun acc c => buildTopo g fuel c acc) (v :: st.1, st.2)
        (st1.1, st1.2 ++ [v])

/-- The topological order `Value.backward` builds from `root`. -/
def topoOf (g : Graph α) (root : Nat) : List Nat :=
  (buildTopo g g.length root ([], [])).2

/-- `Value.backward`: build the topological order, zero the gradient of
every node in it, seed the root gradient with 1, then run each node's
backward rule in reverse topological order. -/
def backward (pw : α → α → α) (g : Graph α) (root : Nat) : Graph α :=
  let topo := topoOf g root
  let g1 := topo.foldl (fun h i => setGrad h i 0) g
  let g2 := setGrad g1 root 1
  topo.reverse.foldl (fun h k => runNodeBackward pw h k) g2

/-- `tensor_sum`: starts from a fresh `Value(0.0)` and folds `s = s + v`. -/
def tensorSum (g : Graph α) (vs : List Nat) : Graph α × Nat :=
  vs.foldl (fun st v => addV st.1 st.2 v) (mkValue g 0)

/-- `tensor_mean`: `Value(0.0)` on an empty list, otherwise
`tensor_sum(vals) * (1.0 / len(vals))` (the float factor becomes a fresh
leaf through `_ensure_value`). -/
def tensorMean (g : Graph α) (vs : List Nat) : Graph α × Nat :=
  if vs.length = 0 then mkValue g 0
  else
    let p1 := tensorSum g vs
    let p2 := mkValue p1.1 (1 / (vs.length : α))
    mulV p2.1 p1.2 p2.2

/-- State-threading list map: the graph-building analogue of a Python
list comprehension that creates nodes. -/
def mapAccum {β : Type} (f : Graph α → β → Graph α × Nat) :
    Graph α → List β → Graph α × List Nat
  | g, [] => (g, [])
  | g, v :: vs =>
      let p := f g v
      let q := mapAccum f p.1 vs
      (q.1, p.2 :: q.2)

/-- `stable_softmax` (nn.py): empty input returns `[]` at once; otherwise
the running maximum is selected by comparing raw `.data` while keeping
the node identity, then `exp(v - max)` per logit, `tensor_sum` of the
exponentials, and elementwise division by the sum. -/
def stableSoftmax (E : α → α) (pw : α → α → α) (g : Graph α) (logits : List Nat) :
    Graph α × List Nat :=
  match logits with
  | [] => (g, [])
  | l0 :: rest =>
      let maxI := rest.foldl (fun mv v => if dt g mv ≥ dt g v then mv else v) l0
      let p1 := mapAccum (fun h v => let q := subV h v maxI; expV E q.1 q.2) g logits
      let p2 := tensorSum p1.1 p1.2
      mapAccum (fun h e => divV pw h e p2.2) p2.1 p1.2

/-- `MSELoss.__call__` (optim.py): the `assert len(preds) == len(targets)`
is modelled as an invalid-argument error; on equal lengths it builds
`(p - Value(t)) ** 2` per pair and returns `tensor_mean` of them. -/
def mseLoss (pw : α → α → α) (g : Graph α) (preds : List Nat) (targets : List α) :
    Except String (Graph α × Nat) :=
  if preds.length = targets.length then
    let p1 := mapAccum (fun h pt =>
        let q1 := mkValue h pt.2
        let q2 := subV q1.1 pt.1 q1.2
        powV pw q2.1 q2.2 2) g (preds.zip targets)
    Except.ok (tensorMean p1.1 p1.2)
  else Except.error "assert len(preds) == len(targets) failed"

/-- `CrossEntropyLoss.__call__` (optim.py): softmax of the logits, then
`-(p.log())` for exactly the zipped positions whose target equals 1.0,
and `tensor_mean` of those.  The source performs no length check: `zip`
stops at the shorter of the two sequences. -/
def ceLoss (E : α → α) (pw : α → α → α) (L : α → α) (g : Graph α)
    (logits : List Nat) (targets : List α) : Except String (Graph α × Nat) :=
  let p1 := stableSoftmax E pw g logits
  let p2 := (p1.2.zip targets).foldl
      (fun (st : Graph α × List Nat) pt =>
        if pt.2 = 1 then
          let q1 := logV L st.1 pt.1
          let q2 := negV q1.1 q1.2
          (q2.1, st.2 ++ [q2.2])
        else st)
      (p1.1, [])
  Except.ok (tensorMean p2.1 p2.2)

/-- A `Linear` layer (nn.py): sizes plus the indices of its weight and
optional bias parameter nodes (`W[out][in]`, `b[out]`). -/
structure Linear where
  inF : Nat
  outF : Nat
  W : List (List Nat)
  b : Option (List Nat)

/-- `Linear.__call__`: raises `ValueError` when the input length differs
from `in_features`; otherwise, for each output index, the dot product of
weight row `i` with the input via `tensor_sum` of the pairwise products,
plus the bias node when present. -/
def linearCall (L : Linear) (g : Graph α) (x : List Nat) :
    Except String (Graph α × List Nat) :=
  if x.length ≠ L.inF then
    Except.error "ValueError: Linear expected input length in_features"
  else
    Except.ok (mapAccum (fun h i =>
      let row := L.W.getD i []
      let p1 := mapAccum (fun h2 wx => mulV h2 wx.1 wx.2) h (row.zip x)
      let p2 := tensorSum p1.1 p1.2
      match L.b with
      | some bs => addV p2.1 p2.2 (bs.getD i 0)
      | none => p2) g (List.range L.outF))

/-- Per-parameter optimizer state: an association list standing for the
Python dict keyed by `id(param)`, with `.get(pid, 0.0)` lookup. -/
def dget (l : List (Nat × α)) (k : Nat) : α :=
  match l.find? (fun e => e.1 == k) with
  | some e => e.2
  | none => 0

/-- Dict update `d[pid] = x`. -/
def dset (l : List (Nat × α)) (k : Nat) (x : α) : List (Nat × α) :=
  (k, x) :: l.filter (fun e => e.1 != k)

/-- `Adam` optimizer state: hyperparameters, first/second moment dicts
and the single global step counter `t`. -/
structure AdamState (α : Type) where
  lr : α
  beta1 : α
  beta2 : α
  eps : α
  wd : α
  m : List (Nat × α)
  v : List (Nat × α)
  t : Nat

/-- `Adam.__init__`: moment dicts seeded with 0.0 for every managed
parameter, `t = 0`. -/
def adamInit (lr beta1 beta2 eps wd : α) (params : List Nat) : AdamState α :=
  ⟨lr, beta1, beta2, eps, wd, params.map (fun p => (p, 0)),
    params.map (fun p => (p, 0)), 0⟩

/-- `Adam.step`: `self._t += 1` once, before the loop over parameters;
then per parameter the weight-decay-adjusted gradient, exponential
moment updates, bias correction by `1 - beta^t` with the shared `t`, and
the in-place `p.data += -lr * m_hat / (sqrt(v_hat) + eps)`.  `S` stands
for math.sqrt. -/
def adamStep (S : α → α) (st : AdamState α) (g : Graph α) (params : List Nat) :
    AdamState α × Graph α :=
  let t := st.t + 1
  params.foldl (fun (acc : AdamState α × Graph α) p =>
      let s := acc.1
      let h := acc.2
      let gd0 := gr h p
      let gd := if s.wd ≠ 0 then gd0 + s.wd * dt h p else gd0
      let m := s.beta1 * dget s.m p + (1 - s.beta1) * gd
      let v := s.beta2 * dget s.v p + (1 - s.beta2) * (gd * gd)
      let mHat := m / (1 - s.beta1 ^ t)
      let vHat := v / (1 - s.beta2 ^ t)
      let upd := -s.lr * mHat / (S vHat + s.eps)
      ({ s with m := dset s.m p m, v := dset s.v p v },
        setData h p (dt h p + upd))) ({ st with t := t }, g)

end Engine

/-! ### Concrete graphs used by the self-check claims -/

/-- `x = Value(2.0); y = Value(3.0); z = x * y + y` — nodes 0, 1, 2, 3
with `z` at index 3 (the `__main__` self-check of engine.py). -/
def c1Graph : Graph ℚ :=
  let p0 := mkValue ([] : Graph ℚ) 2
  let p1 := mkValue p0.1 3
  let p2 := mulV p1.1 p0.2 p1.2
  (addV p2.1 p2.2 p1.2).1

/-- `a = Value(2); b = a * a + a * 3` — node 0 is `a`, node 1 is `a * a`,
node 2 the coerced `Value(3)`, node 3 is `a * 3`, node 4 is `b`. -/
def c2Graph : Graph ℚ :=
  let p0 := mkValue ([] : Graph ℚ) 2
  let p1 := mulV p0.1 p0.2 p0.2
  let p2 := mkValue p1.1 3
  let p3 := mulV p2.1 p0.2 p2.2
  (addV p3.1 p1.2 p3.2).1

/-- Two leaves `a`, `b` and the product node `out = a * b` at index 2. -/
def mulGraph (a b : ℚ) : Graph ℚ :=
  let p0 := mkValue ([] : Graph ℚ) a
  let p1 := mkValue p0.1 b
  (mulV p1.1 p0.2 p1.2).1

/-- C1: for the expression `z = x * y + y` built from leaves `x = 2.0`
and `y = 3.0`, `z.backward()` sets `x.grad = 3.0` and `y.grad = 3.0`. -/
theorem c1_self_check_grads (pw : ℚ → ℚ → ℚ) :
    gr (backward pw c1Graph 3) 0 = 3 ∧ gr (backward pw c1Graph 3) 1 = 3 := by
  norm_num [backward, topoOf, buildTopo, c1Graph, mkValue, mulV, addV, runNodeBackward,
    setGrad, bumpGrad, getN, dt, gr, pv, opOf, List.getD]

/-- C2: with `a = Value(2)` feeding both `a * a` and `a * 3`, summed into
`b`, a single `b.backward()` accumulates both path contributions:
`a.grad = 2 + 2 + 3 = 7`. -/
theorem c2_accumulation_two_paths (pw : ℚ → ℚ → ℚ) :
    gr (backward pw c2Graph 4) 0 = 7 := by
  norm_num [backward, topoOf, buildTopo, c2Graph, mkValue, mulV, addV, runNodeBackward,
    setGrad, bumpGrad, getN, dt, gr, pv, opOf, List.getD]

/-- C4 counterexample: build `out = a * b` with `a = 2`, `b = 3`, then
mutate `a.data` to 5 before `out.backward()`.  The backward rule reads
the operand's *current* value, so `b.grad` becomes 5 — not the
construction-time 2 the claim asserts. -/
theorem c4_counterexample :
    gr (backward (fun _ _ => 0) (setData (mulGraph 2 3) 0 5) 2) 1 = 5 ∧ (5 : ℚ) ≠ 2 := by
  constructor
  · norm_num [backward, topoOf, buildTopo, mulGraph, mkValue, mulV, runNodeBackward,
      setGrad, bumpGrad, setData, getN, dt, gr, pv, opOf, List.getD]
  · norm_num

/-- C4 amended: the multiplication backward rule adds to each operand's
gradient the other operand's value *as read at backward time* times the
output gradient; a mutation of `a.data` after constructing `out = a * b`
does flow into `b`'s gradient (while the stored forward `out.data`
remains the stale product). -/
theorem c4_mul_backward_reads_current_value (pw : ℚ → ℚ → ℚ) (a b nv : ℚ) :
    gr (backward pw (setData (mulGraph a b) 0 nv) 2) 1 = nv ∧
    gr (backward pw (setData (mulGraph a b) 0 nv) 2) 0 = b ∧
    dt (setData (mulGraph a b) 0 nv) 2 = a * b := by
  refine ⟨?_, ?_, ?_⟩ <;>
    simp [backward, topoOf, buildTopo, mulGraph, mkValue, mulV, runNodeBackward,
      setGrad, bumpGrad, setData, getN, dt, gr, pv, opOf, List.getD]

/-! ### Shape lemmas for the module layer -/

theorem mapAccum_length {α : Type} [LinearOrderedField α] {β : Type}
    (f : Graph α → β → Graph α × Nat) (g : Graph α) (l : List β) :
    ((mapAccum f g l).2).length = l.length := by
  induction l generalizing g with
  | nil => rfl
  | cons v vs ih => simp [mapAccum, ih]

theorem zip_take_length {β γ : Type} (l : List β) (t : List γ) :
    l.zip (t.take l.length) = l.zip t := by
  induction l generalizing t with
  | nil => rfl
  | cons a l ih =>
      cases t with
      | nil => rfl
      | cons b t => simp [ih]

theorem stableSoftmax_length {α : Type} [LinearOrderedField α] (E : α → α)
    (pw : α → α → α) (g : Graph α) (logits : List Nat) :
    ((stableSoftmax E pw g logits).2).length = logits.length := by
  cases logits <;> simp [stableSoftmax, mapAccum_length]

/-- C10: `stable_softmax` on an empty logit list returns the empty list
and leaves the graph untouched (no node is constructed); on any input it
returns exactly one probability per logit. -/
theorem c10_stable_softmax_shape {α : Type} [LinearOrderedField α]
    (E : α → α) (pw : α → α → α) (g : Graph α) :
    stableSoftmax E pw g [] = (g, []) ∧
    ∀ logits, ((stableSoftmax E pw g logits).2).length = logits.length :=
  ⟨rfl, fun logits => stableSoftmax_length E pw g logits⟩

/-- C9: `Linear.__call__` rejects an input whose length differs from
`in_features` with a `ValueError` (no truncation or padding), and on an
input of the correct length returns `out_features` output nodes. -/
theorem c9_linear_call_contract {α : Type} [LinearOrderedField α]
    (L : Linear) (g : Graph α) (x : List Nat) :
    (x.length ≠ L.inF → ∃ msg, linearCall L g x = Except.error msg) ∧
    (x.length = L.inF → ∃ p, linearCall L g x = Except.ok p ∧ p.2.length = L.outF) := by
  constructor
  · intro h
    unfold linearCall
    rw [if_pos h]
    exact ⟨_, rfl⟩
  · intro h
    unfold linearCall
    rw [if_neg (by simp [h])]
    exact ⟨_, rfl, by simp [mapAccum_length]⟩

/-- C9 witness: a layer with `in_features = 3`, `out_features = 1`
rejects the length-2 input `[0, 1]` and maps the length-3 input
`[5, 6, 7]` to a single output node. -/
theorem c9_witness :
    (([0, 1] : List Nat).length ≠ 3 ∧
      ∃ msg, linearCall ⟨3, 1, [[0, 1, 2]], none⟩ ([] : Graph ℚ) [0, 1] = Except.error msg) ∧
    (([5, 6, 7] : List Nat).length = 3 ∧
      ∃ p, linearCall ⟨3, 1, [[0, 1, 2]], none⟩ ([] : Graph ℚ) [5, 6, 7] = Except.ok p ∧
        p.2.length = 1) :=
  ⟨⟨by decide, (c9_linear_call_contract ⟨3, 1, [[0, 1, 2]], none⟩ [] [0, 1]).1 (by decide)⟩,
    ⟨rfl, (c9_linear_call_contract ⟨3, 1, [[0, 1, 2]], none⟩ [] [5, 6, 7]).2 rfl⟩⟩

/-! ### Losses: length handling (C5) -/

/-- C5 amended: `MSELoss` fails immediately on mismatched lengths (the
`assert`) and succeeds on equal lengths, while `CrossEntropyLoss`
performs no length check at all: it always returns a loss node, and its
result only depends on the first `len(logits)` targets — `zip` silently
drops the rest. -/
theorem c5_loss_length_checks {α : Type} [LinearOrderedField α]
    (pw : α → α → α) (E L : α → α) (g : Graph α) (preds : List Nat)
    (targets : List α) (logits : List Nat) (tgs : List α) :
    (preds.length ≠ targets.length → ∃ msg, mseLoss pw g preds targets = Except.error msg) ∧
    (preds.length = targets.length → ∃ p, mseLoss pw g preds targets = Except.ok p) ∧
    (∃ p, ceLoss E pw L g logits tgs = Except.ok p) ∧
    ceLoss E pw L g logits tgs = ceLoss E pw L g logits (tgs.take logits.length) := by
  refine ⟨?_, ?_, ⟨_, rfl⟩, ?_⟩
  · intro h
    unfold mseLoss
    rw [if_neg h]
    exact ⟨_, rfl⟩
  · intro h
    unfold mseLoss
    rw [if_pos h]
    exact ⟨_, rfl⟩
  · simp only [ceLoss]
    rw [← stableSoftmax_length E pw g logits, zip_take_length]

/-- C5 witness for the `MSELoss` halves: one prediction against zero
targets errors; one prediction against one target succeeds. -/
theorem c5_witness :
    (([0] : List Nat).length ≠ ([] : List ℚ).length ∧
      ∃ msg, mseLoss (fun _ _ => 0) ([] : Graph ℚ) [0] [] = Except.error msg) ∧
    (([0] : List Nat).length = ([(5 : ℚ)]).length ∧
      ∃ p, mseLoss (fun _ _ => 0) ([] : Graph ℚ) [0] [5] = Except.ok p) :=
  ⟨⟨by decide,
      (c5_loss_length_checks (fun _ _ => 0) (fun x => x) (fun x => x)
        ([] : Graph ℚ) [0] [] [] []).1 (by decide)⟩,
    ⟨rfl,
      (c5_loss_length_checks (fun _ _ => 0) (fun x => x) (fun x => x)
        ([] : Graph ℚ) [0] [5] [] []).2.1 rfl⟩⟩

/-- Python float `**` on reals: mathlib's real power. -/
noncomputable def rpw : ℝ → ℝ → ℝ := fun b e => b ^ e

/-- Two real leaves with data 0 and 1 (logit nodes 0 and 1). -/
noncomputable def c5Graph : Graph ℝ :=
  (mkValue (mkValue ([] : Graph ℝ) 0).1 1).1

/-- C5 counterexample: `CrossEntropyLoss` called with two logits and a
single target does not fail — it returns a loss node — contradicting the
claim that every mismatched-length loss call errors immediately. -/
theorem c5_counterexample :
    ([0, 1] : List Nat).length ≠ ([(1 : ℝ)]).length ∧
    ∃ p, ceLoss Real.exp rpw Real.log c5Graph [0, 1] [1] = Except.ok p :=
  ⟨by decide, ⟨_, rfl⟩⟩

/-! ### Power backward at a zero base (C6) -/

/-- A real pow node with exponent `e` over a single leaf with data `b`;
the node's gradient (the output gradient) is `gk`. -/
noncomputable def powNodeGraph (b e gk : ℝ) : Graph ℝ :=
  [⟨b, 0, [], Op.leaf⟩, ⟨rpw b e, gk, [0], Op.pow 0 e⟩]

/-- C6: the pow backward rule at a zero base contributes exactly 0 to
the base's gradient whenever `e - 1 < 0`; with exponent 2 at base 0 the
contribution is likewise 0 (via `2 * 0 ** 1`); in every non-guarded case
the contribution is `e * base ** (e - 1)` times the output gradient. -/
theorem c6_pow_backward_zero_base (b e gk : ℝ) :
    (e - 1 < 0 → gr (runNodeBackward rpw (powNodeGraph 0 e gk) 1) 0 = 0) ∧
    gr (runNodeBackward rpw (powNodeGraph 0 2 gk) 1) 0 = 0 ∧
    (¬(b = 0 ∧ e - 1 < 0) →
      gr (runNodeBackward rpw (powNodeGraph b e gk) 1) 0 = e * b ^ (e - 1) * gk) := by
  refine ⟨fun h => ?_, ?_, fun h => ?_⟩
  · simp [runNodeBackward, powNodeGraph, powLocalGrad, opOf, getN, dt, gr, bumpGrad,
      List.getD, h]
  · norm_num [runNodeBackward, powNodeGraph, powLocalGrad, opOf, getN, dt, gr, bumpGrad,
      List.getD, rpw, Real.rpow_one]
  · have hg : powLocalGrad rpw b e = e * rpw b (e - 1) := by
      unfold powLocalGrad
      rw [if_neg h]
    simp [runNodeBackward, powNodeGraph, opOf, getN, dt, gr, bumpGrad, List.getD, hg, rpw]

/-- C6 witness: exponent −1 at base 0 gives contribution 0; exponent 2
at base 3 gives `2 * 3 ** 1` times the output gradient. -/
theorem c6_witness :
    ((-1 : ℝ) - 1 < 0 ∧ gr (runNodeBackward rpw (powNodeGraph 0 (-1) 1) 1) 0 = 0) ∧
    (¬((3 : ℝ) = 0 ∧ (2 : ℝ) - 1 < 0) ∧
      gr (runNodeBackward rpw (powNodeGraph 3 2 1) 1) 0 = 2 * (3 : ℝ) ^ ((2 : ℝ) - 1) * 1) :=
  ⟨⟨by norm_num, (c6_pow_backward_zero_base 0 (-1) 1).1 (by norm_num)⟩,
    ⟨by norm_num, (c6_pow_backward_zero_base 3 2 1).2.2 (by norm_num)⟩⟩

/-! ### Adam (C8) -/

/-- Default Adam state managing the single parameter node 0:
`lr = 1e-3`, `betas = (0.9, 0.999)`, `eps = 1e-8`, no weight decay. -/
noncomputable def c8State : AdamState ℝ :=
  adamInit (1 / 1000) (9 / 10) (999 / 1000) (1 / 100000000) 0 [0]

/-- A single parameter leaf with value 1.0 and gradient 1.0. -/
noncomputable def c8Graph : Graph ℝ := [⟨1, 1, [], Op.leaf⟩]

/-- A fold whose step keeps the optimizer's `t` field fixed keeps it
fixed overall. -/
theorem foldl_preserves_t {α β : Type} (f : AdamState α × β → Nat → AdamState α × β)
    (hf : ∀ acc p, ((f acc p).1).t = acc.1.t) :
    ∀ (l : List Nat) (acc : AdamState α × β), ((l.foldl f acc).1).t = acc.1.t := by
  intro l
  induction l with
  | nil => intro acc; rfl
  | cons p ps ih => intro acc; rw [List.foldl_cons, ih, hf]

/-- C8: `Adam.step` increments the global step counter exactly once per
call, whatever the parameter list; and one step on a single parameter
with value 1.0 and gradient 1.0 under default hyperparameters yields the
deterministic new value `1 - (1e-3)/(1 + 1e-8) = 99900001/100000001`. -/
theorem c8_adam_step_deterministic :
    (∀ (S : ℝ → ℝ) (st : AdamState ℝ) (g : Graph ℝ) (ps : List Nat),
      (adamStep S st g ps).1.t = st.t + 1) ∧
    dt (adamStep Real.sqrt c8State c8Graph [0]).2 0 = 99900001 / 100000001 := by
  constructor
  · intro S st g ps
    unfold adamStep
    refine foldl_preserves_t _ ?_ ps _
    intro acc p
    rfl
  · norm_num [adamStep, adamInit, c8State, c8Graph, dget, dset, setData, getN, dt, gr,
      List.getD, Real.sqrt_one]


/-! ### Accessor lemmas for the store operations -/

section StoreLemmas

variable {α : Type} [LinearOrderedField α]

theorem getN_set (g : Graph α) (i j : Nat) (n : Node α) :
    getN (g.set i n) j = if i = j ∧ i < g.length then n else getN g j := by
  unfold getN
  simp only [List.getD, List.get?_eq_getElem?, List.getElem?_set]
  by_cases h1 : i = j
  · subst h1
    by_cases h2 : i < g.length
    · simp [h2]
    · simp [h2, List.getElem?_eq_none (Nat.le_of_not_lt h2)]
  · simp [h1]

theorem gr_oob (g : Graph α) (j : Nat) (h : g.length ≤ j) : gr g j = 0 := by
  unfold gr getN
  rw [List.getD, List.get?_eq_getElem?, List.getElem?_eq_none h]
  rfl

theorem length_setGrad (g : Graph α) (i : Nat) (v : α) :
    (setGrad g i v).length = g.length := List.length_set g i _

theorem length_bumpGrad (g : Graph α) (i : Nat) (d : α) :
    (bumpGrad g i d).length = g.length := List.length_set g i _

theorem dt_setGrad (g : Graph α) (i j : Nat) (v : α) : dt (setGrad g i v) j = dt g j := by
  unfold dt setGrad
  rw [getN_set]
  split
  · next h => rw [h.1]
  · rfl

theorem pv_setGrad (g : Graph α) (i j : Nat) (v : α) : pv (setGrad g i v) j = pv g j := by
  unfold pv setGrad
  rw [getN_set]
  split
  · next h => rw [h.1]
  · rfl

theorem opOf_setGrad (g : Graph α) (i j : Nat) (v : α) :
    opOf (setGrad g i v) j = opOf g j := by
  unfold opOf setGrad
  rw [getN_set]
  split
  · next h => rw [h.1]
  · rfl

theorem gr_setGrad (g : Graph α) (i j : Nat) (v : α) :
    gr (setGrad g i v) j = if i = j ∧ i < g.length then v else gr g j := by
  unfold gr setGrad
  rw [getN_set]
  split
  · rfl
  · rfl

theorem dt_bumpGrad (g : Graph α) (i j : Nat) (d : α) : dt (bumpGrad g i d) j = dt g j := by
  unfold dt bumpGrad
  rw [getN_set]
  split
  · next h => rw [h.1]
  · rfl

theorem pv_bumpGrad (g : Graph α) (i j : Nat) (d : α) : pv (bumpGrad g i d) j = pv g j := by
  unfold pv bumpGrad
  rw [getN_set]
  split
  · next h => rw [h.1]
  · rfl

theorem opOf_bumpGrad (g : Graph α) (i j : Nat) (d : α) :
    opOf (bumpGrad g i d) j = opOf g j := by
  unfold opOf bumpGrad
  rw [getN_set]
  split
  · next h => rw [h.1]
  · rfl

theorem gr_bumpGrad (g : Graph α) (i j : Nat) (d : α) :
    gr (bumpGrad g i d) j = if i = j ∧ i < g.length then gr g j + d else gr g j := by
  unfold gr bumpGrad
  rw [getN_set]
  split
  · next h => rw [h.1]
  · rfl

end StoreLemmas

/-! ### The backward pass only mutates gradients -/

section BackwardStructure

variable {α : Type} [LinearOrderedField α]

theorem length_runNodeBackward (pw : α → α → α) (g : Graph α) (k : Nat) :
    (runNodeBackward pw g k).length = g.length := by
  unfold runNodeBackward
  cases hop : opOf g k <;> simp [length_bumpGrad]

theorem dt_runNodeBackward (pw : α → α → α) (g : Graph α) (k j : Nat) :
    dt (runNodeBackward pw g k) j = dt g j := by
  unfold runNodeBackward
  cases hop : opOf g k <;> simp [dt_bumpGrad]

theorem pv_runNodeBackward (pw : α → α → α) (g : Graph α) (k j : Nat) :
    pv (runNodeBackward pw g k) j = pv g j := by
  unfold runNodeBackward
  cases hop : opOf g k <;> simp [pv_bumpGrad]

theorem opOf_runNodeBackward (pw : α → α → α) (g : Graph α) (k j : Nat) :
    opOf (runNodeBackward pw g k) j = opOf g j := by
  unfold runNodeBackward
  cases hop : opOf g k <;> simp [opOf_bumpGrad]

theorem length_foldZero : ∀ (T : List Nat) (g : Graph α),
    (T.foldl (fun h i => setGrad h i 0) g).length = g.length := by
  intro T
  induction T with
  | nil => intro g; rfl
  | cons j T ih => intro g; rw [List.foldl_cons, ih, length_setGrad]

theorem dt_foldZero : ∀ (T : List Nat) (g : Graph α) (m : Nat),
    dt (T.foldl (fun h i => setGrad h i 0) g) m = dt g m := by
  intro T
  induction T with
  | nil => intro g m; rfl
  | cons j T ih => intro g m; rw [List.foldl_cons, ih, dt_setGrad]

theorem pv_foldZero : ∀ (T : List Nat) (g : Graph α) (m : Nat),
    pv (T.foldl (fun h i => setGrad h i 0) g) m = pv g m := by
  intro T
  induction T with
  | nil => intro g m; rfl
  | cons j T ih => intro g m; rw [List.foldl_cons, ih, pv_setGrad]

theorem opOf_foldZero : ∀ (T : List Nat) (g : Graph α) (m : Nat),
    opOf (T.foldl (fun h i => setGrad h i 0) g) m = opOf g m := by
  intro T
  induction T with
  | nil => intro g m; rfl
  | cons j T ih => intro g m; rw [List.foldl_cons, ih, opOf_setGrad]

theorem length_foldRun (pw : α → α → α) : ∀ (L : List Nat) (g : Graph α),
    (L.foldl (fun h k => runNodeBackward pw h k) g).length = g.length := by
  intro L
  induction L with
  | nil => intro g; rfl
  | cons k L ih => intro g; rw [List.foldl_cons, ih, length_runNodeBackward]

theorem dt_foldRun (pw : α → α → α) : ∀ (L : List Nat) (g : Graph α) (m : Nat),
    dt (L.foldl (fun h k => runNodeBackward pw h k) g) m = dt g m := by
  intro L
  induction L with
  | nil => intro g m; rfl
  | cons k L ih => intro g m; rw [List.foldl_cons, ih, dt_runNodeBackward]

theorem pv_foldRun (pw : α → α → α) : ∀ (L : List Nat) (g : Graph α) (m : Nat),
    pv (L.foldl (fun h k => runNodeBackward pw h k) g) m = pv g m := by
  intro L
  induction L with
  | nil => intro g m; rfl
  | cons k L ih => intro g m; rw [List.foldl_cons, ih, pv_runNodeBackward]

theorem opOf_foldRun (pw : α → α → α) : ∀ (L : List Nat) (g : Graph α) (m : Nat),
    opOf (L.foldl (fun h k => runNodeBackward pw h k) g) m = opOf g m := by
  intro L
  induction L with
  | nil => intro g m; rfl
  | cons k L ih => intro g m; rw [List.foldl_cons, ih, opOf_runNodeBackward]

theorem length_backward (pw : α → α → α) (g : Graph α) (root : Nat) :
    (backward pw g root).length = g.length := by
  simp only [backward]
  rw [length_foldRun, length_setGrad, length_foldZero]

theorem dt_backward (pw : α → α → α) (g : Graph α) (root m : Nat) :
    dt (backward pw g root) m = dt g m := by
  simp only [backward]
  rw [dt_foldRun, dt_setGrad, dt_foldZero]

theorem pv_backward (pw : α → α → α) (g : Graph α) (root m : Nat) :
    pv (backward pw g root) m = pv g m := by
  simp only [backward]
  rw [pv_foldRun, pv_setGrad, pv_foldZero]

theorem opOf_backward (pw : α → α → α) (g : Graph α) (root m : Nat) :
    opOf (backward pw g root) m = opOf g m := by
  simp only [backward]
  rw [opOf_foldRun, opOf_setGrad, opOf_foldZero]

/-- The DFS reads only the `_prev` wiring, so any two graphs with the
same wiring produce the same traversal. -/
theorem buildTopo_congr (g g' : Graph α) (hpv : ∀ v, pv g v = pv g' v) :
    ∀ (fuel v : Nat) (st : List Nat × List Nat),
      buildTopo g fuel v st = buildTopo g' fuel v st := by
  intro fuel
  induction fuel with
  | zero => intro v st; rfl
  | succ f ih =>
      intro v st
      simp only [buildTopo]
      by_cases hv : v ∈ st.1
      · rw [if_pos hv, if_pos hv]
      · rw [if_neg hv, if_neg hv, hpv v]
        have hfold : ∀ (l : List Nat) (acc : List Nat × List Nat),
            l.foldl (fun acc c => buildTopo g f c acc) acc =
            l.foldl (fun acc c => buildTopo g' f c acc) acc := by
          intro l
          induction l with
          | nil => intro acc; rfl
          | cons c cs ihl =>
              intro acc
              rw [List.foldl_cons, List.foldl_cons, ih c acc, ihl]
        rw [hfold]

theorem topoOf_congr (g g' : Graph α) (hlen : g.length = g'.length)
    (hpv : ∀ v, pv g v = pv g' v) (root : Nat) : topoOf g root = topoOf g' root := by
  unfold topoOf
  rw [hlen, buildTopo_congr g g' hpv]

theorem gr_foldZero_not_mem : ∀ (T : List Nat) (g : Graph α) (i : Nat), i ∉ T →
    gr (T.foldl (fun h j => setGrad h j 0) g) i = gr g i := by
  intro T
  induction T with
  | nil => intro g i _; rfl
  | cons j T ih =>
      intro g i hi
      have hi' : i ≠ j ∧ i ∉ T := by simpa [List.mem_cons, not_or] using hi
      rw [List.foldl_cons, ih _ _ hi'.2, gr_setGrad,
        if_neg (fun hc => hi'.1 hc.1.symm)]

theorem gr_foldZero_mem : ∀ (T : List Nat) (g : Graph α) (i : Nat), i ∈ T →
    gr (T.foldl (fun h j => setGrad h j 0) g) i = 0 := by
  intro T
  induction T with
  | nil => intro g i hi; cases hi
  | cons j T ih =>
      intro g i hi
      by_cases hT : i ∈ T
      · rw [List.foldl_cons]
        exact ih _ _ hT
      · have hij : i = j := by
          rcases List.mem_cons.mp hi with h | h
          · exact h
          · exact absurd h hT
        subst hij
        rw [List.foldl_cons, gr_foldZero_not_mem T _ i hT, gr_setGrad]
        by_cases hlen : i < g.length
        · rw [if_pos ⟨rfl, hlen⟩]
        · rw [if_neg (fun hc => hlen hc.2), gr_oob g i (Nat.le_of_not_lt hlen)]

end BackwardStructure

/-! ### Gradients after backward depend only on data and wiring -/

section BackwardIdempotent

variable {α : Type} [LinearOrderedField α]

theorem gr_bump_pair {T : List Nat} {g g' : Graph α} (hlen : g.length = g'.length)
    (hgr : ∀ i ∈ T, gr g i = gr g' i) (b : Nat) {d d' : α} (hd : d = d') :
    ∀ i ∈ T, gr (bumpGrad g b d) i = gr (bumpGrad g' b d') i := by
  intro i hi
  rw [gr_bumpGrad, gr_bumpGrad, hlen, hd]
  by_cases hC : b = i ∧ b < g'.length
  · rw [if_pos hC, if_pos hC, hgr i hi]
  · rw [if_neg hC, if_neg hC]
    exact hgr i hi

/-- Running one node's backward rule on two graphs with the same data
and operations, and with equal gradients on a set `T` containing the
node, keeps the gradients equal on `T`: the rule reads only `data`, the
op payload, and gradients of nodes it was invoked on. -/
theorem gr_run_pair (pw : α → α → α) (T : List Nat) (g g' : Graph α)
    (hlen : g.length = g'.length) (hdt : ∀ i, dt g i = dt g' i)
    (hop : ∀ i, opOf g i = opOf g' i)
    (hgr : ∀ i ∈ T, gr g i = gr g' i) (k : Nat) (hk : k ∈ T) :
    ∀ m ∈ T, gr (runNodeBackward pw g k) m = gr (runNodeBackward pw g' k) m := by
  cases hkop : opOf g k with
  | leaf =>
      have hkop' : opOf g' k = Op.leaf := by rw [← hop k, hkop]
      simp only [runNodeBackward, hkop, hkop']
      exact hgr
  | add i j =>
      have hkop' : opOf g' k = Op.add i j := by rw [← hop k, hkop]
      simp only [runNodeBackward, hkop, hkop']
      have h1 : ∀ m ∈ T, gr (bumpGrad g i (1 * gr g k)) m =
          gr (bumpGrad g' i (1 * gr g' k)) m :=
        gr_bump_pair hlen hgr i (by rw [hgr k hk])
      exact gr_bump_pair (by rw [length_bumpGrad, length_bumpGrad, hlen]) h1 j
        (by rw [h1 k hk])
  | neg i =>
      have hkop' : opOf g' k = Op.neg i := by rw [← hop k, hkop]
      simp only [runNodeBackward, hkop, hkop']
      exact gr_bump_pair hlen hgr i (by rw [hgr k hk])
  | mul i j =>
      have hkop' : opOf g' k = Op.mul i j := by rw [← hop k, hkop]
      simp only [runNodeBackward, hkop, hkop']
      have h1 : ∀ m ∈ T, gr (bumpGrad g i (dt g j * gr g k)) m =
          gr (bumpGrad g' i (dt g' j * gr g' k)) m :=
        gr_bump_pair hlen hgr i (by rw [hdt j, hgr k hk])
      exact gr_bump_pair (by rw [length_bumpGrad, length_bumpGrad, hlen]) h1 j
        (by rw [dt_bumpGrad, dt_bumpGrad, hdt i, h1 k hk])
  | pow i e =>
      have hkop' : opOf g' k = Op.pow i e := by rw [← hop k, hkop]
      simp only [runNodeBackward, hkop, hkop']
      exact gr_bump_pair hlen hgr i (by rw [hdt i, hgr k hk])
  | exp i od =>
      have hkop' : opOf g' k = Op.exp i od := by rw [← hop k, hkop]
      simp only [runNodeBackward, hkop, hkop']
      exact gr_bump_pair hlen hgr i (by rw [hgr k hk])
  | log i safe =>
      have hkop' : opOf g' k = Op.log i safe := by rw [← hop k, hkop]
      simp only [runNodeBackward, hkop, hkop']
      exact gr_bump_pair hlen hgr i (by rw [hgr k hk])
  | tanh i t =>
      have hkop' : opOf g' k = Op.tanh i t := by rw [← hop k, hkop]
      simp only [runNodeBackward, hkop, hkop']
      exact gr_bump_pair hlen hgr i (by rw [hgr k hk])
  | relu i =>
      have hkop' : opOf g' k = Op.relu i := by rw [← hop k, hkop]
      simp only [runNodeBackward, hkop, hkop']
      exact gr_bump_pair hlen hgr i (by rw [hdt i, hgr k hk])

theorem gr_foldRun_pair (pw : α → α → α) (T : List Nat) :
    ∀ (L : List Nat), (∀ k ∈ L, k ∈ T) →
    ∀ (g g' : Graph α), g.length = g'.length → (∀ i, dt g i = dt g' i) →
      (∀ i, opOf g i = opOf g' i) → (∀ i ∈ T, gr g i = gr g' i) →
      ∀ m ∈ T, gr (L.foldl (fun h k => runNodeBackward pw h k) g) m =
        gr (L.foldl (fun h k => runNodeBackward pw h k) g') m := by
  intro L
  induction L with
  | nil =>
      intro _ g g' _ _ _ hgr m hm
      exact hgr m hm
  | cons k L ih =>
      intro hL g g' hlen hdt hop hgr m hm
      rw [List.foldl_cons, List.foldl_cons]
      refine ih (fun x hx => hL x (List.mem_cons_of_mem _ hx)) _ _ ?_ ?_ ?_ ?_ m hm
      · rw [length_runNodeBackward, length_runNodeBackward, hlen]
      · intro i
        rw [dt_runNodeBackward, dt_runNodeBackward, hdt i]
      · intro i
        rw [opOf_runNodeBackward, opOf_runNodeBackward, hop i]
      · exact gr_run_pair pw T g g' hlen hdt hop hgr k (hL k (List.mem_cons_self k L))

/-- C3: `backward` called twice in a row from the same root leaves every
node of the traversed subgraph with exactly the same gradient as after
the first call — each call re-zeros the visited gradients, re-seeds the
root with 1, and recomputes from data and wiring, which `backward` never
mutates. -/
theorem c3_backward_idempotent (pw : α → α → α) (g : Graph α) (root : Nat) :
    ∀ m ∈ topoOf g root,
      gr (backward pw (backward pw g root) root) m = gr (backward pw g root) m := by
  intro m hm
  have hlenB : (backward pw g root).length = g.length := length_backward pw g root
  have hdtB : ∀ i, dt (backward pw g root) i = dt g i := fun i => dt_backward pw g root i
  have hpvB : ∀ i, pv (backward pw g root) i = pv g i := fun i => pv_backward pw g root i
  have hopB : ∀ i, opOf (backward pw g root) i = opOf g i :=
    fun i => opOf_backward pw g root i
  have htopo : topoOf (backward pw g root) root = topoOf g root :=
    topoOf_congr _ g hlenB hpvB root
  have hback : ∀ h : Graph α, topoOf h root = topoOf g root →
      backward pw h root = (topoOf g root).reverse.foldl
        (fun a k => runNodeBackward pw a k)
        (setGrad ((topoOf g root).foldl (fun a i => setGrad a i 0) h) root 1) := by
    intro h hh
    simp only [backward, hh]
  rw [hback (backward pw g root) htopo]
  have hres := gr_foldRun_pair pw (topoOf g root) (topoOf g root).reverse
    (fun x hx => List.mem_reverse.mp hx)
    (setGrad ((topoOf g root).foldl (fun a i => setGrad a i 0) (backward pw g root)) root 1)
    (setGrad ((topoOf g root).foldl (fun a i => setGrad a i 0) g) root 1)
    (by rw [length_setGrad, length_setGrad, length_foldZero, length_foldZero, hlenB])
    (by
      intro i
      rw [dt_setGrad, dt_setGrad, dt_foldZero, dt_foldZero, hdtB i])
    (by
      intro i
      rw [opOf_setGrad, opOf_setGrad, opOf_foldZero, opOf_foldZero, hopB i])
    (by
      intro i hi
      rw [gr_setGrad, gr_setGrad, length_foldZero, length_foldZero, hlenB]
      by_cases hC : root = i ∧ root < g.length
      · rw [if_pos hC, if_pos hC]
      · rw [if_neg hC, if_neg hC, gr_foldZero_mem _ _ _ hi, gr_foldZero_mem _ _ _ hi])
    m hm
  rw [hres, ← hback g rfl]

/-- C3 witness: on the self-check graph `z = x * y + y`, leaf `x`
(node 0) is in the traversal and a second backward call leaves its
gradient unchanged. -/
theorem c3_witness :
    0 ∈ topoOf c1Graph 3 ∧
    gr (backward (fun _ _ => 0) (backward (fun _ _ => 0) c1Graph 3) 3) 0 =
      gr (backward (fun _ _ => 0) c1Graph 3) 0 :=
  ⟨by decide, c3_backward_idempotent (fun _ _ => 0) c1Graph 3 0 (by decide)⟩

end BackwardIdempotent

/-! ### Sigmoid by composition (C7) -/

/-- The graph built by `Value(x).sigmoid()` on a lone real leaf. -/
noncomputable def sigGraph (x : ℝ) : Graph ℝ := (sigmoidV Real.exp rpw [⟨x, 0, [], Op.leaf⟩] 0).1

/-- The sigmoid graph with explicit per-node gradients `g0 .. g7`
(data and wiring fixed); used to trace the backward pass node by node. -/
noncomputable def sigNodes (x g0 g1 g2 g3 g4 g5 g6 g7 : ℝ) : Graph ℝ :=
  [⟨x, g0, [], Op.leaf⟩, ⟨-x, g1, [0], Op.neg 0⟩,
    ⟨Real.exp (-x), g2, [1], Op.exp 1 (Real.exp (-x))⟩, ⟨1, g3, [], Op.leaf⟩,
    ⟨Real.exp (-x) + 1, g4, [2, 3], Op.add 2 3⟩, ⟨1, g5, [], Op.leaf⟩,
    ⟨rpw (Real.exp (-x) + 1) (-1), g6, [4], Op.pow 4 (-1)⟩,
    ⟨1 * rpw (Real.exp (-x) + 1) (-1), g7, [5, 6], Op.mul 5 6⟩]

theorem rpw_neg_one (D : ℝ) : rpw D (-1) = D⁻¹ := by
  have h : ((-1 : ℝ)) = ((-1 : ℤ) : ℝ) := by norm_num
  rw [rpw, h, Real.rpow_intCast]
  simp

theorem rpw_neg_two (D : ℝ) : rpw D (-2) = (D ^ 2)⁻¹ := by
  have h : ((-2 : ℝ)) = ((-2 : ℤ) : ℝ) := by norm_num
  rw [rpw, h, Real.rpow_intCast, zpow_neg]
  norm_cast

/-- C7: sigmoid is built purely from neg, exp, leaf-coercion, add, pow −1
and mul nodes (there is no sigmoid backward rule in `Op` at all; the
result is node 7); its forward value is `1 / (1 + exp (-x))`; and after
`backward` from the sigmoid node (whose output gradient is seeded to 1)
the leaf receives exactly `sigmoid(x) * (1 - sigmoid(x))` times that
output gradient, by composition of the elementary rules. -/
theorem c7_sigmoid_composition (x : ℝ) :
    (sigmoidV Real.exp rpw [⟨x, 0, [], Op.leaf⟩] 0).2 = 7 ∧
    (sigGraph x).map Node.op =
      [Op.leaf, Op.neg 0, Op.exp 1 (Real.exp (-x)), Op.leaf, Op.add 2 3, Op.leaf,
        Op.pow 4 (-1), Op.mul 5 6] ∧
    dt (sigGraph x) 7 = 1 / (1 + Real.exp (-x)) ∧
    gr (backward rpw (sigGraph x) 7) 7 = 1 ∧
    gr (backward rpw (sigGraph x) 7) 0 =
      dt (sigGraph x) 7 * (1 - dt (sigGraph x) 7) * gr (backward rpw (sigGraph x) 7) 7 := by
  have hD : (0 : ℝ) < Real.exp (-x) + 1 := by positivity
  have hDne : Real.exp (-x) + 1 ≠ 0 := ne_of_gt hD
  have hg : sigGraph x = sigNodes x 0 0 0 0 0 0 0 0 := by rfl
  have htopo : topoOf (sigNodes x 0 0 0 0 0 0 0 0) 7 = [5, 0, 1, 2, 3, 4, 6, 7] := by rfl
  have hseed : setGrad (setGrad (setGrad (setGrad (setGrad (setGrad (setGrad (setGrad
      (setGrad (sigNodes x 0 0 0 0 0 0 0 0) 5 0) 0 0) 1 0) 2 0) 3 0) 4 0) 6 0) 7 0) 7 1 =
      sigNodes x 0 0 0 0 0 0 0 1 := by rfl
  have hrev : List.reverse [5, 0, 1, 2, 3, 4, 6, 7] = ([7, 6, 4, 3, 2, 1, 0, 5] : List Nat) := by rfl
  have s7 : runNodeBackward rpw (sigNodes x 0 0 0 0 0 0 0 1) 7 =
      sigNodes x 0 0 0 0 0 (rpw (Real.exp (-x) + 1) (-1)) 1 1 := by
    norm_num [runNodeBackward, sigNodes, opOf, getN, dt, gr, bumpGrad, List.getD]
  have s6 : runNodeBackward rpw (sigNodes x 0 0 0 0 0 (rpw (Real.exp (-x) + 1) (-1)) 1 1) 6 =
      sigNodes x 0 0 0 0 (-rpw (Real.exp (-x) + 1) (-2)) (rpw (Real.exp (-x) + 1) (-1)) 1 1 := by
    norm_num [runNodeBackward, sigNodes, opOf, getN, dt, gr, bumpGrad, powLocalGrad,
      List.getD, hDne]
  have s4 : runNodeBackward rpw (sigNodes x 0 0 0 0 (-rpw (Real.exp (-x) + 1) (-2))
        (rpw (Real.exp (-x) + 1) (-1)) 1 1) 4 =
      sigNodes x 0 0 (-rpw (Real.exp (-x) + 1) (-2)) (-rpw (Real.exp (-x) + 1) (-2))
        (-rpw (Real.exp (-x) + 1) (-2)) (rpw (Real.exp (-x) + 1) (-1)) 1 1 := by
    norm_num [runNodeBackward, sigNodes, opOf, getN, dt, gr, bumpGrad, List.getD]
  have s3 : runNodeBackward rpw (sigNodes x 0 0 (-rpw (Real.exp (-x) + 1) (-2))
        (-rpw (Real.exp (-x) + 1) (-2)) (-rpw (Real.exp (-x) + 1) (-2))
        (rpw (Real.exp (-x) + 1) (-1)) 1 1) 3 =
      sigNodes x 0 0 (-rpw (Real.exp (-x) + 1) (-2)) (-rpw (Real.exp (-x) + 1) (-2))
        (-rpw (Real.exp (-x) + 1) (-2)) (rpw (Real.exp (-x) + 1) (-1)) 1 1 := by
    norm_num [runNodeBackward, sigNodes, opOf, getN, List.getD]
  have s2 : runNodeBackward rpw (sigNodes x 0 0 (-rpw (Real.exp (-x) + 1) (-2))
        (-rpw (Real.exp (-x) + 1) (-2)) (-rpw (Real.exp (-x) + 1) (-2))
        (rpw (Real.exp (-x) + 1) (-1)) 1 1) 2 =
      sigNodes x 0 (-(Real.exp (-x) * rpw (Real.exp (-x) + 1) (-2)))
        (-rpw (Real.exp (-x) + 1) (-2)) (-rpw (Real.exp (-x) + 1) (-2))
        (-rpw (Real.exp (-x) + 1) (-2)) (rpw (Real.exp (-x) + 1) (-1)) 1 1 := by
    norm_num [runNodeBackward, sigNodes, opOf, getN, dt, gr, bumpGrad, List.getD]
  have s1 : runNodeBackward rpw (sigNodes x 0 (-(Real.exp (-x) * rpw (Real.exp (-x) + 1) (-2)))
        (-rpw (Real.exp (-x) + 1) (-2)) (-rpw (Real.exp (-x) + 1) (-2))
        (-rpw (Real.exp (-x) + 1) (-2)) (rpw (Real.exp (-x) + 1) (-1)) 1 1) 1 =
      sigNodes x (Real.exp (-x) * rpw (Real.exp (-x) + 1) (-2))
        (-(Real.exp (-x) * rpw (Real.exp (-x) + 1) (-2)))
        (-rpw (Real.exp (-x) + 1) (-2)) (-rpw (Real.exp (-x) + 1) (-2))
        (-rpw (Real.exp (-x) + 1) (-2)) (rpw (Real.exp (-x) + 1) (-1)) 1 1 := by
    norm_num [runNodeBackward, sigNodes, opOf, getN, dt, gr, bumpGrad, List.getD]
  have s0 : runNodeBackward rpw (sigNodes x (Real.exp (-x) * rpw (Real.exp (-x) + 1) (-2))
        (-(Real.exp (-x) * rpw (Real.exp (-x) + 1) (-2)))
        (-rpw (Real.exp (-x) + 1) (-2)) (-rpw (Real.exp (-x) + 1) (-2))
        (-rpw (Real.exp (-x) + 1) (-2)) (rpw (Real.exp (-x) + 1) (-1)) 1 1) 0 =
      sigNodes x (Real.exp (-x) * rpw (Real.exp (-x) + 1) (-2))
        (-(Real.exp (-x) * rpw (Real.exp (-x) + 1) (-2)))
        (-rpw (Real.exp (-x) + 1) (-2)) (-rpw (Real.exp (-x) + 1) (-2))
        (-rpw (Real.exp (-x) + 1) (-2)) (rpw (Real.exp (-x) + 1) (-1)) 1 1 := by
    norm_num [runNodeBackward, sigNodes, opOf, getN, List.getD]
  have s5 : runNodeBackward rpw (sigNodes x (Real.exp (-x) * rpw (Real.exp (-x) + 1) (-2))
        (-(Real.exp (-x) * rpw (Real.exp (-x) + 1) (-2)))
        (-rpw (Real.exp (-x) + 1) (-2)) (-rpw (Real.exp (-x) + 1) (-2))
        (-rpw (Real.exp (-x) + 1) (-2)) (rpw (Real.exp (-x) + 1) (-1)) 1 1) 5 =
      sigNodes x (Real.exp (-x) * rpw (Real.exp (-x) + 1) (-2))
        (-(Real.exp (-x) * rpw (Real.exp (-x) + 1) (-2)))
        (-rpw (Real.exp (-x) + 1) (-2)) (-rpw (Real.exp (-x) + 1) (-2))
        (-rpw (Real.exp (-x) + 1) (-2)) (rpw (Real.exp (-x) + 1) (-1)) 1 1 := by
    norm_num [runNodeBackward, sigNodes, opOf, getN, List.getD]
  have hb : backward rpw (sigNodes x 0 0 0 0 0 0 0 0) 7 =
      sigNodes x (Real.exp (-x) * rpw (Real.exp (-x) + 1) (-2))
        (-(Real.exp (-x) * rpw (Real.exp (-x) + 1) (-2)))
        (-rpw (Real.exp (-x) + 1) (-2)) (-rpw (Real.exp (-x) + 1) (-2))
        (-rpw (Real.exp (-x) + 1) (-2)) (rpw (Real.exp (-x) + 1) (-1)) 1 1 := by
    simp only [backward, htopo, hrev, hseed, List.foldl_cons, List.foldl_nil,
      s7, s6, s4, s3, s2, s1, s0, s5]
  rw [hg, hb]
  refine ⟨rfl, by rw [← hg]; rfl, ?_, ?_, ?_⟩
  · simp [dt, getN, sigNodes, List.getD, rpw_neg_one]
    ring
  · simp [gr, getN, sigNodes, List.getD]
  · simp [gr, dt, getN, sigNodes, List.getD, rpw_neg_one, rpw_neg_two]
    field_simp
    ring

end Micrograd
